import Mathlib

/-!
Verification of the gopi application-framework core (app.go): module
registration into an application instance, instance construction,
the lifecycle runner, reverse-order teardown, and duplicate-free
module-list assembly.  Definitions are shallow embeddings of the Go
source; the dependency resolver (`ModuleWithDependencies`), which is
declared outside the files at hand, is modelled from the spec where a
claim needs it.
-/

namespace Gopi

/-- Drivers are opaque handles; we embed a `gopi.Driver` pointer as a
natural-number identity.  The behaviour of a driver's `Close` method is
supplied externally as an oracle `Driver → Option String` (`none` =
close succeeded, `some e` = close returned error `e`). -/
abbrev Driver := Nat

/-- The module capability types referenced by app.go: the four
non-singleton tags (`MODULE_TYPE_NONE`, `OTHER`, `SERVICE`, `CLIENT`)
and the twelve singleton tags handled by the convenience-accessor
switch in `setModuleInstance`. -/
inductive ModuleType where
  | none_ | other | service | client
  | logger | hardware | display | graphics | fonts | layout
  | gpio | i2c | spi | timer | lirc | input
deriving DecidableEq, Repr

/-- The lookup state of `gopi.AppInstance` mutated by
`setModuleInstance` and cleared by `Close`: the by-name map, the
by-type map (association lists, mirroring the Go maps' key-value
content) and the creation-order driver list `byorder`.  The typed
convenience fields (`this.Logger`, `this.Hardware`, ...) carry the same
drivers as `bytype` and are not duplicated here; the cast step that
fills them is embedded via the `supports` oracle below. -/
structure ModuleInstState where
  byname : List (String × Driver)
  bytype : List (ModuleType × Driver)
  byorder : List Driver
deriving DecidableEq, Repr

/-- Embedding of `gopi.Module` as used by `NewAppInstance`,
`setModuleInstance` and `Run`:
* `New` embeds the construction hook `func(*AppInstance) (Driver, error)`;
  `none` means the Go field is nil; the hook's value is a function of the
  partially built instance returning (driver-or-nil, error-or-nil).
* `RunHook` embeds the optional run hook; since only its error result
  flows back into `AppInstance.Run`, it is embedded as the outcome it
  produces (`none` = nil hook, `some r` = hook present returning `r`). -/
structure Module where
  Name : String
  MType : ModuleType
  New : Option (ModuleInstState → Option Driver × Option String)
  RunHook : Option (Option String)

/-- Errors returned by `setModuleInstance`. -/
inductive SetErr where
  | duplicateName (name : String)
  | duplicateType (t : ModuleType)
  | castError (name : String)
deriving DecidableEq, Repr

/-- Go: `module.Type != MODULE_TYPE_NONE && module.Type != MODULE_TYPE_OTHER
&& module.Type != MODULE_TYPE_SERVICE && module.Type != MODULE_TYPE_CLIENT`. -/
def isSingletonType (t : ModuleType) : Bool :=
  !(t == .none_) && !(t == .other) && !(t == .service) && !(t == .client)

/-- The convenience-accessor switch at the end of `setModuleInstance`:
for each of the twelve typed cases the driver is cast to the capability
interface; `supports d t` is the oracle for whether the dynamic cast of
driver `d` to the interface of type `t` succeeds.  A failing cast
returns the `cannot be cast` error; types outside the switch fall
through with no error. -/
def castCheck (supports : Driver → ModuleType → Bool) (m : Module)
    (driver : Driver) : Option SetErr :=
  match m.MType with
  | .logger | .hardware | .display | .graphics | .fonts | .layout
  | .gpio | .i2c | .spi | .timer | .lirc | .input =>
      if supports driver m.MType then none else some (.castError m.Name)
  | _ => none

/-- Embedding of `(*AppInstance).setModuleInstance`.  The Go method
mutates the receiver in place and returns an error; we return the
mutated state together with the optional error, so that partial
mutation before an early `return` is preserved:
1. duplicate name → error, nothing changed;
2. otherwise record the name, then for singleton types a duplicate
   type → error (with the name already recorded);
3. otherwise record the type, append the driver to `byorder`, and run
   the convenience-accessor cast switch. -/
def setModuleInstance (supports : Driver → ModuleType → Bool)
    (this : ModuleInstState) (m : Module) (driver : Driver) :
    ModuleInstState × Option SetErr :=
  if (this.byname.lookup m.Name).isSome then
    (this, some (.duplicateName m.Name))
  else
    let this := { this with byname := this.byname ++ [(m.Name, driver)] }
    if isSingletonType m.MType then
      if (this.bytype.lookup m.MType).isSome then
        (this, some (.duplicateType m.MType))
      else
        let this := { this with bytype := this.bytype ++ [(m.MType, driver)] }
        let this := { this with byorder := this.byorder ++ [driver] }
        (this, castCheck supports m driver)
    else
      let this := { this with byorder := this.byorder ++ [driver] }
      (this, castCheck supports m driver)

/-! ### Teardown: `(*AppInstance).Close` -/

/-- The loop `for i := len(this.byorder); i > 0; i--` of
`(*AppInstance).Close`: each iteration closes `byorder[i-1]`; a close
error is logged (recorded next to the driver here) and iteration
continues.  `closeRes` is the oracle giving each driver's close
result. -/
def closeLoop (closeRes : Driver → Option String) (byorder : List Driver) :
    Nat → List (Driver × Option String)
  | 0 => []
  | i + 1 =>
    match byorder[i]? with
    | some d => (d, closeRes d) :: closeLoop closeRes byorder i
    | none => closeLoop closeRes byorder i

/-- Embedding of `(*AppInstance).Close`: runs the reverse close loop
over `byorder`, clears the lookup structures, and returns nil.  The
result is (cleared state, sequence of close calls with their results,
returned error). -/
def ModuleInstState.close (closeRes : Driver → Option String)
    (this : ModuleInstState) :
    ModuleInstState × List (Driver × Option String) × Option String :=
  (⟨[], [], []⟩, closeLoop closeRes this.byorder this.byorder.length, none)

/-! ### Duplicate-free module-list assembly -/

/-- Module descriptors live in a process-wide registry and are passed
around by pointer (`*gopi.Module`); `appendModules` compares pointers.
We embed a module pointer as a natural-number identity. -/
abbrev ModulePtr := Nat

/-- Embedding of `inModules`: linear scan comparing pointers. -/
def inModules (modules : List ModulePtr) (other : ModulePtr) : Bool :=
  match modules with
  | [] => false
  | m :: rest => if m = other then true else inModules rest other

/-- The loop body of `appendModules`: each element of `others` not
already present in the (growing) `modules` list is appended. -/
def appendModulesLoop (modules : List ModulePtr) (others : List ModulePtr) :
    List ModulePtr :=
  match others with
  | [] => modules
  | o :: rest =>
    if inModules modules o then appendModulesLoop modules rest
    else appendModulesLoop (modules ++ [o]) rest

/-- Embedding of `appendModules`: early return on empty `others`
(mirroring `if len(others) == 0`), else the append loop. -/
def appendModules (modules : List ModulePtr) (others : List ModulePtr) :
    List ModulePtr :=
  if others.isEmpty then modules else appendModulesLoop modules others

/-! ### Instance building: `NewAppInstance` -/

/-- Observable calls made by the builder: invocations of a module's
`New` hook and of a driver's `Close` method. -/
inductive BEvent where
  | newCall (name : String)
  | closeCall (d : Driver)
deriving DecidableEq, Repr

/-- Errors returned by `NewAppInstance`:
* `appError` embeds `ErrAppError` (nil `AppFlags`);
* `parseError` embeds the error of `AppFlags.Parse`;
* `hookErr` embeds a construction hook's own error, propagated as-is;
* `newNil` embeds `fmt.Errorf("%v: New: return nil", module.Name)`;
* `setErr` embeds an error from `setModuleInstance`. -/
inductive BuildErr where
  | appError
  | parseError (e : String)
  | hookErr (e : String)
  | newNil (name : String)
  | setErr (e : SetErr)
deriving DecidableEq, Repr

/-- Embedding of `gopi.AppConfig` as consumed by `NewAppInstance`.
The `Flags` type is outside the files at hand, so its contribution is
carried as outcomes: `flagsPresent` is `AppFlags != nil`, `parsed` is
`AppFlags.Parsed()`, and `parseErr` is the result that
`AppFlags.Parse(AppArgs)` would return on this configuration's
argument vector (`none` = success). -/
structure BuildConfig where
  Modules : List Module
  flagsPresent : Bool
  parsed : Bool
  parseErr : Option String

/-- The module-construction loop of `NewAppInstance`.  For each module
with a non-nil `New` hook: invoke the hook on the partially built
instance; a hook error aborts the build and is propagated unchanged; a
nil driver with nil error aborts with the `New: return nil` error
naming the module; a `setModuleInstance` failure closes the
just-returned driver and aborts with that failure.  Returns the built
state or the error, together with the trace of hook and close calls. -/
def buildLoop (supports : Driver → ModuleType → Bool)
    (this : ModuleInstState) (evts : List BEvent) :
    List Module → Except BuildErr ModuleInstState × List BEvent
  | [] => (.ok this, evts)
  | m :: rest =>
    match m.New with
    | none => buildLoop supports this evts rest
    | some hook =>
      let evts := evts ++ [.newCall m.Name]
      match hook this with
      | (_, some e) => (.error (.hookErr e), evts)
      | (none, none) => (.error (.newNil m.Name), evts)
      | (some driver, none) =>
        match setModuleInstance supports this m driver with
        | (this, none) => buildLoop supports this evts rest
        | (_, some e) => (.error (.setErr e), evts ++ [.closeCall driver])

/-- Embedding of `NewAppInstance`: a nil `AppFlags` fails with
`ErrAppError`; unparsed flags are parsed, a parse failure is returned
before the construction loop; then the modules are constructed in
configuration order starting from empty lookup tables.  (The
debug/verbose/service bookkeeping and the signal-channel setup touch
no state a claim mentions and produce no observable call.) -/
def NewAppInstance (supports : Driver → ModuleType → Bool)
    (config : BuildConfig) : Except BuildErr ModuleInstState × List BEvent :=
  if !config.flagsPresent then (.error .appError, [])
  else if !config.parsed then
    match config.parseErr with
    | some e => (.error (.parseError e), [])
    | none => buildLoop supports ⟨[], [], []⟩ [] config.Modules
  else buildLoop supports ⟨[], [], []⟩ [] config.Modules

/-- Number of `Close` invocations in a builder trace. -/
def countCloses (evts : List BEvent) : Nat :=
  (evts.filter fun e => match e with | .closeCall _ => true | _ => false).length

/-- Number of `New`-hook invocations in a builder trace. -/
def countNews (evts : List BEvent) : Nat :=
  (evts.filter fun e => match e with | .newCall _ => true | _ => false).length

/-! ### The lifecycle runner's returned value -/

/-- The module `Run`-hook loop at the top of `(*AppInstance).Run`:
modules with a nil hook are skipped; the first hook error is returned
and aborts the run before any task starts. -/
def runHooksLoop : List Module → Option String
  | [] => none
  | m :: rest =>
    match m.RunHook with
    | none => runHooksLoop rest
    | some none => runHooksLoop rest
    | some (some e) => some e

/-- The value returned by `(*AppInstance).Run`, together with the
background-task errors it logs: if a module `Run` hook fails, that
error is returned and no task runs; otherwise the main task runs and
its error is returned after all background tasks finish, while each
background task's error is only logged.  `mainErr` and `bgErrs` are
the oracles for the task results. -/
def runResult (modules : List Module) (mainErr : Option String)
    (bgErrs : List (Option String)) : Option String × List String :=
  match runHooksLoop modules with
  | some e => (some e, [])
  | none => (mainErr, bgErrs.filterMap id)

/-! ### The drain protocol of `Run`

`Run` makes unbuffered channels `channels[0..n]`, starts `n`
background goroutines, starts one drain goroutine that first receives
from `channels[0]` and then sends `DONE` on `channels[1]`, ...,
`channels[n]` in order, and then calls `main_task(this, channels[0])`
on the main goroutine.  We model the task phase as an interleaving
semantics.  An operation on an unbuffered Go channel completes as a
rendezvous, so a matched send/receive pair is one joint step.  The
main task body is a script of primitive actions (internal work, or the
send of the completion token on `channels[0]`) followed by its return;
each background task sits at the receive on its channel (cooperative
cancellation), so the drain's send to it is always ready to pair. -/

/-- A primitive action of the main task body. -/
inductive MAct where
  | internal
  | send
deriving DecidableEq, Repr

/-- Observable events of the task phase: an internal main-task step, the
rendezvous of the main task's send on `channels[0]` with the drain
goroutine's receive, the main task's return, and the rendezvous of the
drain goroutine's `DONE` send on `channels[i+1]` with background task
`i`'s receive. -/
inductive REvent where
  | mainStep
  | sync0
  | mainRet
  | bgSignal (i : Nat)
deriving DecidableEq, Repr

/-- Interleaving state: the remaining main-task script, whether the
main task has returned, and the drain goroutine's position (`none` =
blocked receiving on `channels[0]`; `some k` = has received, has sent
`DONE` to background tasks `0..k-1`, next sends to task `k`). -/
structure RunState where
  mainRem : List MAct
  mainRetired : Bool
  drain : Option Nat
deriving DecidableEq, Repr

/-- One interleaving step of the task phase with `n` background tasks. -/
inductive RunStep (n : Nat) : RunState → REvent → RunState → Prop where
  | internal (r : List MAct) (mr : Bool) (d : Option Nat) :
      RunStep n ⟨.internal :: r, mr, d⟩ .mainStep ⟨r, mr, d⟩
  | sync0 (r : List MAct) (mr : Bool) :
      RunStep n ⟨.send :: r, mr, none⟩ .sync0 ⟨r, mr, some 0⟩
  | mainRet (d : Option Nat) :
      RunStep n ⟨[], false, d⟩ .mainRet ⟨[], true, d⟩
  | bgSignal (m : List MAct) (mr : Bool) (k : Nat) (h : k < n) :
      RunStep n ⟨m, mr, some k⟩ (.bgSignal k) ⟨m, mr, some (k + 1)⟩

/-- Reachability of a state and its event trace from a start state by
interleaved steps. -/
inductive RunReach (n : Nat) (s0 : RunState) : RunState → List REvent → Prop where
  | refl : RunReach n s0 s0 []
  | step {s : RunState} {tr : List REvent} {e : REvent} {s' : RunState} :
      RunReach n s0 s tr → RunStep n s e s' → RunReach n s0 s' (tr ++ [e])

/-- The start of the task phase: the main task's script is untouched,
it has not returned, the drain goroutine is blocked on `channels[0]`. -/
def runInit (script : List MAct) : RunState := ⟨script, false, none⟩

/-! ### Dependency resolution and `NewAppConfig` -/

/-- Modelled from the spec: the registry entry a `*gopi.Module`
pointer designates, as the resolver sees it — a globally unique name
and the names of the modules it requires (the declaration of
`gopi.Module`'s registry side lives outside the files at hand). -/
structure ModuleDesc where
  name : String
  deps : List String
deriving DecidableEq, Repr

/-- Resolution errors: unregistered dependency name, dependency cycle,
or fuel exhaustion of the executable model (unreachable for the fuel
chosen below). -/
inductive RErr where
  | unknown (name : String)
  | cyclic (name : String)
  | fuelExhausted
deriving DecidableEq, Repr

mutual
/-- Modelled from the spec: one step of the depth-first resolution of
`ModuleWithDependencies` (the resolver itself lives outside the files
at hand) — resolve `name` into the ordered `resolved` sequence of
registry indices: a name already resolved is skipped; a name on the
active recursion stack `visiting` is a cycle; an unregistered name is
an error; otherwise its required names are resolved first and the name
is appended after them.  `fuel` bounds the recursion so the model is
executable. -/
def resolveOne (reg : List ModuleDesc) (fuel : Nat) (visiting : List String)
    (name : String) (resolved : List Nat) : Except RErr (List Nat) :=
  match fuel with
  | 0 => .error .fuelExhausted
  | fuel' + 1 =>
    match reg.findIdx? (fun d => d.name = name) with
    | none => .error (.unknown name)
    | some i =>
      if i ∈ resolved then .ok resolved
      else if name ∈ visiting then .error (.cyclic name)
      else
        match resolveMany reg fuel' (name :: visiting)
            ((reg.get? i).elim [] ModuleDesc.deps) resolved with
        | .error e => .error e
        | .ok resolved' => .ok (resolved' ++ [i])

/-- Modelled from the spec: resolve a list of names left to right,
threading the resolved sequence. -/
def resolveMany (reg : List ModuleDesc) (fuel : Nat) (visiting : List String)
    (names : List String) (resolved : List Nat) : Except RErr (List Nat) :=
  match fuel with
  | 0 => .error .fuelExhausted
  | fuel' + 1 =>
    match names with
    | [] => .ok resolved
    | n :: rest =>
      match resolveOne reg fuel' visiting n resolved with
      | .error e => .error e
      | .ok resolved' => resolveMany reg fuel' visiting rest resolved'
end

/-- A fuel bound comfortably above the number of resolver calls any
run on registry `reg` can make. -/
def resolveFuel (reg : List ModuleDesc) : Nat :=
  (reg.foldl (fun a d => a + d.deps.length + 1) 1) * (reg.length + 2)

/-- Modelled from the spec: `ModuleWithDependencies(name)` — the
ordered, duplicate-free closure of `name` and its transitive
dependencies, each dependency strictly before its dependents, as
registry indices (standing for the `*gopi.Module` pointers the real
resolver returns). -/
def ModuleWithDependencies (reg : List ModuleDesc) (name : String) :
    Except RErr (List ModulePtr) :=
  resolveOne reg (resolveFuel reg) [] name []

/-- Embedding of `AppendModulesByName`: resolve each requested name
and merge the resulting closure onto the accumulated list with
`appendModules`; the first resolution error aborts.  (The Go nil-slice
initialisation is the empty list here.) -/
def AppendModulesByName (reg : List ModuleDesc) (modules : List ModulePtr) :
    List String → Except RErr (List ModulePtr)
  | [] => .ok modules
  | n :: rest =>
    match ModuleWithDependencies reg n with
    | .error e => .error e
    | .ok arr => AppendModulesByName reg (appendModules modules arr) rest

/-- Embedding of `gopi.AppConfig` as produced by `NewAppConfig`: the
resolved module list and the base settings the code assigns.  The
argument vector and flag schema (`AppArgs`, `AppFlags`) are process
I/O handles and are not part of the state the claims mention; per the
configuration-hook contract the per-module `Config` hooks invoked at
the end of `NewAppConfig` only register option definitions and leave
these fields untouched. -/
structure ResolvedConfig where
  Modules : List ModulePtr
  Debug : Bool
  Verbose : Bool
  Service : String
deriving DecidableEq, Repr

/-- The zero-value `AppConfig{}` returned on a resolution error. -/
def emptyResolvedConfig : ResolvedConfig := ⟨[], false, false, ""⟩

/-- Embedding of `NewAppConfig`: resolve `"logger"` with its
dependencies first, then append the caller's requested modules by
name; either failure yields the zero configuration; on success the
base settings are `Debug=false`, `Verbose=false`,
`Service=DEFAULT_RPC_SERVICE`. -/
def NewAppConfig (reg : List ModuleDesc) (modules : List String) :
    ResolvedConfig :=
  match ModuleWithDependencies reg "logger" with
  | .error _ => emptyResolvedConfig
  | .ok loggerMods =>
    match AppendModulesByName reg loggerMods modules with
    | .error _ => emptyResolvedConfig
    | .ok mods => ⟨mods, false, false, "gopi"⟩

/-! ## Supporting lemmas -/

/-- The close loop with budget `n` visits exactly the first `n`
positions of `byorder`, last first. -/
theorem closeLoop_map_fst (cr : Driver → Option String) (l : List Driver) :
    ∀ n, (closeLoop cr l n).map Prod.fst = (l.take n).reverse := by
  intro n
  induction n with
  | zero => simp [closeLoop]
  | succ n ih =>
    rw [List.take_succ]
    cases h : l[n]? with
    | none => simp [closeLoop, h, ih]
    | some d => simp [closeLoop, h, ih]

/-- A `setModuleInstance` error surfaced after the `byorder` append is
a cast error. -/
theorem castCheck_eq_some (supports : Driver → ModuleType → Bool)
    (m : Module) (d : Driver) (e : SetErr)
    (h : castCheck supports m d = some e) : e = .castError m.Name := by
  obtain ⟨nm, mt, hN, hR⟩ := m
  cases mt <;> simp only [castCheck] at h <;>
    (try split_ifs at h) <;> simp_all

/-! ## Claims -/

/-- Claim C1: Teardown (`AppInstance.Close`) invokes the close
operation on every constructed driver exactly once, in strict reverse
creation order, and a close failure on one driver does not stop
iteration over the remaining drivers: for every close-result oracle
(failures included) the sequence of drivers closed is exactly the
reverse of the creation-order list. -/
theorem C1_close_exact_reverse (closeRes : Driver → Option String)
    (s : ModuleInstState) :
    ((ModuleInstState.close closeRes s).2.1).map Prod.fst =
      s.byorder.reverse := by
  simp [ModuleInstState.close, closeLoop_map_fst]

/-- Claim C3 counterexample: a registration that fails with a
duplicate-name error leaves the failed driver absent from the
creation-order list — the code returns the by-name error before the
`byorder` append, against the claimed append-before-error ordering. -/
theorem C3_counterexample :
    (setModuleInstance (fun _ _ => true) ⟨[("a", 1)], [], [1]⟩
        ⟨"a", .other, none, none⟩ 2).2 = some (.duplicateName "a") ∧
    2 ∉ ((setModuleInstance (fun _ _ => true) ⟨[("a", 1)], [], [1]⟩
        ⟨"a", .other, none, none⟩ 2).1).byorder := by
  refine ⟨rfl, ?_⟩
  decide

/-- Claim C3 (amended): whenever `setModuleInstance` returns a by-name
or by-type error, the creation-order list is left unchanged — the
failed driver is appended only after both duplicate checks pass. -/
theorem C3_amended_no_append_on_dup (supports : Driver → ModuleType → Bool)
    (s : ModuleInstState) (m : Module) (d : Driver) (e : SetErr)
    (h : (setModuleInstance supports s m d).2 = some e)
    (hdup : (∃ n, e = .duplicateName n) ∨ ∃ t, e = .duplicateType t) :
    ((setModuleInstance supports s m d).1).byorder = s.byorder := by
  simp only [setModuleInstance] at h ⊢
  split_ifs at h ⊢ with h1 h2 h3
  · rfl
  · rfl
  · rcases hdup with ⟨n, rfl⟩ | ⟨t, rfl⟩ <;>
      simpa using castCheck_eq_some supports m d _ h
  · rcases hdup with ⟨n, rfl⟩ | ⟨t, rfl⟩ <;>
      simpa using castCheck_eq_some supports m d _ h

/-- Claim C3 (amended) witness at the duplicate-name input. -/
theorem C3_amended_witness :
    ((setModuleInstance (fun _ _ => true) ⟨[("a", 1)], [], [1]⟩
        ⟨"a", .other, none, none⟩ 2).1).byorder = [1] :=
  C3_amended_no_append_on_dup (fun _ _ => true) ⟨[("a", 1)], [], [1]⟩
    ⟨"a", .other, none, none⟩ 2 (.duplicateName "a") rfl (Or.inl ⟨"a", rfl⟩)

/-- Claim C4 counterexample: constructing a second module of an
occupied singleton type fails with the duplicate-type error, but the
by-name map is NOT left unchanged — it has already recorded the failed
module's name. -/
theorem C4_counterexample :
    setModuleInstance (fun _ _ => true) ⟨[("a", 1)], [(.logger, 1)], [1]⟩
        ⟨"b", .logger, none, none⟩ 2 =
      (⟨[("a", 1), ("b", 2)], [(.logger, 1)], [1]⟩,
        some (.duplicateType .logger)) ∧
    ((setModuleInstance (fun _ _ => true) ⟨[("a", 1)], [(.logger, 1)], [1]⟩
        ⟨"b", .logger, none, none⟩ 2).1).byname ≠ [("a", 1)] := by
  refine ⟨rfl, ?_⟩
  decide

/-- Claim C4 (amended): constructing a second module of an occupied
singleton type (under a fresh name) fails with the duplicate-type
error and leaves the by-type map and the creation-order list unchanged
— so the singleton constraint is preserved — but the by-name map gains
the failed module's name. -/
theorem C4_amended_dup_type (supports : Driver → ModuleType → Bool)
    (s : ModuleInstState) (m : Module) (d : Driver)
    (hsing : isSingletonType m.MType = true)
    (hname : (s.byname.lookup m.Name).isSome = false)
    (htype : (s.bytype.lookup m.MType).isSome = true) :
    setModuleInstance supports s m d =
      ({ s with byname := s.byname ++ [(m.Name, d)] },
        some (.duplicateType m.MType)) := by
  unfold setModuleInstance
  simp [hname, hsing, htype]

/-- Claim C4 (amended) witness at the occupied-logger input. -/
theorem C4_amended_witness :
    setModuleInstance (fun _ _ => true) ⟨[("a", 1)], [(.logger, 1)], [1]⟩
        ⟨"b", .logger, none, none⟩ 2 =
      (⟨[("a", 1), ("b", 2)], [(.logger, 1)], [1]⟩,
        some (.duplicateType .logger)) :=
  C4_amended_dup_type (fun _ _ => true) ⟨[("a", 1)], [(.logger, 1)], [1]⟩
    ⟨"b", .logger, none, none⟩ 2 rfl rfl rfl

/-- A build aborted by a construction hook's own error performs no
`Close` call beyond those already in the incoming trace. -/
theorem buildLoop_hookErr_no_close (supports : Driver → ModuleType → Bool)
    (mods : List Module) :
    ∀ (this : ModuleInstState) (evts : List BEvent) (e : String),
      (buildLoop supports this evts mods).1 = .error (.hookErr e) →
      countCloses (buildLoop supports this evts mods).2 = countCloses evts := by
  induction mods with
  | nil =>
    intro this evts e h
    simp [buildLoop] at h
  | cons m rest ih =>
    intro this evts e h
    rw [buildLoop] at h ⊢
    cases hN : m.New with
    | none => simp only [hN] at h ⊢; exact ih this evts e h
    | some hook =>
      simp only [hN] at h ⊢
      cases hres : hook this with
      | mk dr er =>
        cases er with
        | some e' =>
          simp only [hres] at h ⊢
          simp [countCloses]
        | none =>
          cases dr with
          | none => simp only [hres] at h; cases h
          | some driver =>
            simp only [hres] at h ⊢
            cases hset : setModuleInstance supports this m driver with
            | mk st res =>
              cases res with
              | none =>
                simp only [hset] at h ⊢
                exact (ih st (evts ++ [BEvent.newCall m.Name]) e h).trans
                  (by simp [countCloses])
              | some se => simp only [hset] at h; cases h

/-- Claim C5 counterexample: a module whose construction hook returns
both a driver and an error aborts the build with that error, but the
builder does not close the returned driver — no `Close` call appears
in the build trace. -/
theorem C5_counterexample :
    NewAppInstance (fun _ _ => true)
        ⟨[⟨"m", .other, some fun _ => (some 7, some "boom"), none⟩],
          true, false, none⟩ =
      (.error (.hookErr "boom"), [.newCall "m"]) ∧
    BEvent.closeCall 7 ∉
      (NewAppInstance (fun _ _ => true)
        ⟨[⟨"m", .other, some fun _ => (some 7, some "boom"), none⟩],
          true, false, none⟩).2 := by
  refine ⟨rfl, ?_⟩
  decide

/-- Claim C5 (amended): when a module's construction hook fails, the
build aborts immediately and propagates the hook's error, and the
builder closes nothing — neither the failed module's driver (even if
one was returned alongside the error) nor any previously constructed
driver; a `Close` by the builder happens only on a registration
failure. -/
theorem C5_amended_hook_failure_closes_nothing
    (supports : Driver → ModuleType → Bool) (config : BuildConfig)
    (e : String)
    (h : (NewAppInstance supports config).1 = .error (.hookErr e)) :
    countCloses (NewAppInstance supports config).2 = 0 := by
  unfold NewAppInstance at h ⊢
  split_ifs at h ⊢
  · cases h
  · cases hp : config.parseErr with
    | some pe => simp only [hp] at h; cases h
    | none =>
      simp only [hp] at h ⊢
      have := buildLoop_hookErr_no_close supports config.Modules ⟨[], [], []⟩ [] e h
      simpa [countCloses] using this
  · have := buildLoop_hookErr_no_close supports config.Modules ⟨[], [], []⟩ [] e h
    simpa [countCloses] using this

/-- Claim C5 (amended) witness: the hook-failure build performs zero
`Close` calls. -/
theorem C5_amended_witness :
    countCloses (NewAppInstance (fun _ _ => true)
      ⟨[⟨"m", .other, some fun _ => (some 7, some "boom"), none⟩],
        true, false, none⟩).2 = 0 :=
  C5_amended_hook_failure_closes_nothing (fun _ _ => true)
    ⟨[⟨"m", .other, some fun _ => (some 7, some "boom"), none⟩],
      true, false, none⟩ "boom" rfl

/-- Claim C6: whenever the module `Run`-hook phase succeeds (so the
task phase is reached), the value `Run` returns is exactly the main
task's error — `none` on main-task success — for every combination of
background-task errors; a background task's error is never the
returned value, it is only logged. -/
theorem C6_run_returns_main_error (modules : List Module)
    (mainErr : Option String) (bgErrs : List (Option String))
    (h : runHooksLoop modules = none) :
    (runResult modules mainErr bgErrs).1 = mainErr := by
  simp [runResult, h]

/-- Claim C6 witness: with a failing background task, `Run` still
returns the main task's (successful) result. -/
theorem C6_witness :
    (runResult [⟨"m", .other, none, some none⟩] none
      [some "background failure"]).1 = none :=
  C6_run_returns_main_error [⟨"m", .other, none, some none⟩] none
    [some "background failure"] rfl

/-- Claim C8: when the configuration's flags are present but not yet
parsed and parsing the process-supplied arguments fails, instance
building returns exactly that parse error with an empty build trace —
no module's construction hook is invoked, so no driver is
constructed. -/
theorem C8_parse_failure_before_construction
    (supports : Driver → ModuleType → Bool) (config : BuildConfig)
    (e : String) (hf : config.flagsPresent = true)
    (hp : config.parsed = false) (he : config.parseErr = some e) :
    NewAppInstance supports config = (.error (.parseError e), []) ∧
    countNews (NewAppInstance supports config).2 = 0 := by
  refine ⟨?_, ?_⟩ <;> simp [NewAppInstance, hf, hp, he, countNews]

/-- Claim C8 witness: a config with a malformed argument vector fails
before its (constructible) module is reached. -/
theorem C8_witness :
    NewAppInstance (fun _ _ => true)
        ⟨[⟨"m", .other, some fun _ => (some 1, none), none⟩],
          true, false, some "flag provided but not defined"⟩ =
      (.error (.parseError "flag provided but not defined"), []) ∧
    countNews (NewAppInstance (fun _ _ => true)
        ⟨[⟨"m", .other, some fun _ => (some 1, none), none⟩],
          true, false, some "flag provided but not defined"⟩).2 = 0 :=
  C8_parse_failure_before_construction (fun _ _ => true)
    ⟨[⟨"m", .other, some fun _ => (some 1, none), none⟩],
      true, false, some "flag provided but not defined"⟩
    "flag provided but not defined" rfl rfl rfl

/-- Claim C9: a construction hook that returns a nil driver together
with a nil error makes the build fail right there with the
`New: return nil` error naming the module: the trace records only the
hook call, and no registration of a nil driver (and no success)
happens. -/
theorem C9_nil_driver_nil_error (supports : Driver → ModuleType → Bool)
    (this : ModuleInstState) (evts : List BEvent) (m : Module)
    (rest : List Module)
    (hook : ModuleInstState → Option Driver × Option String)
    (hN : m.New = some hook) (hnil : hook this = (none, none)) :
    buildLoop supports this evts (m :: rest) =
      (.error (.newNil m.Name), evts ++ [.newCall m.Name]) := by
  simp only [buildLoop, hN, hnil]

/-- Claim C9 witness at a concrete nil-returning hook. -/
theorem C9_witness :
    buildLoop (fun _ _ => true) ⟨[], [], []⟩ []
        [⟨"m", .other, some fun _ => (none, none), none⟩] =
      (.error (.newNil "m"), [.newCall "m"]) :=
  C9_nil_driver_nil_error (fun _ _ => true) ⟨[], [], []⟩ []
    ⟨"m", .other, some fun _ => (none, none), none⟩ []
    (fun _ => (none, none)) rfl rfl

/-- The scan `inModules` decides list membership. -/
theorem inModules_iff_mem (modules : List ModulePtr) (o : ModulePtr) :
    inModules modules o = true ↔ o ∈ modules := by
  induction modules with
  | nil => simp [inModules]
  | cons m rest ih =>
    by_cases h : m = o
    · simp [inModules, h]
    · simp only [inModules, h, if_false, ih, List.mem_cons]
      constructor
      · exact Or.inr
      · rintro (rfl | hr)
        · exact absurd rfl h
        · exact hr

/-- Membership in the result of the append loop is membership in
either input. -/
theorem appendModulesLoop_mem (others : List ModulePtr) :
    ∀ (modules : List ModulePtr) (p : ModulePtr),
      p ∈ appendModulesLoop modules others ↔ p ∈ modules ∨ p ∈ others := by
  induction others with
  | nil => intro modules p; simp [appendModulesLoop]
  | cons o rest ih =>
    intro modules p
    rw [appendModulesLoop]
    by_cases h : inModules modules o = true
    · rw [if_pos h, ih]
      have ho : o ∈ modules := (inModules_iff_mem _ _).1 h
      constructor
      · rintro (hp | hp)
        · exact Or.inl hp
        · exact Or.inr (List.mem_cons_of_mem _ hp)
      · rintro (hp | hp)
        · exact Or.inl hp
        · rcases List.mem_cons.1 hp with rfl | hp
          · exact Or.inl ho
          · exact Or.inr hp
    · rw [if_neg h, ih]
      simp only [List.mem_append, List.mem_cons, List.mem_singleton]
      tauto

/-- The append loop keeps a duplicate-free list duplicate-free. -/
theorem appendModulesLoop_nodup (others : List ModulePtr) :
    ∀ modules : List ModulePtr, modules.Nodup →
      (appendModulesLoop modules others).Nodup := by
  induction others with
  | nil => intro ms h; simpa [appendModulesLoop]
  | cons o rest ih =>
    intro ms h
    rw [appendModulesLoop]
    by_cases hb : inModules ms o = true
    · rw [if_pos hb]; exact ih ms h
    · rw [if_neg hb]
      refine ih (ms ++ [o]) ?_
      have ho : o ∉ ms := fun hmem => hb ((inModules_iff_mem _ _).2 hmem)
      rw [List.nodup_append]
      refine ⟨h, List.nodup_singleton o, ?_⟩
      intro a ha hbs
      rcases List.mem_singleton.1 hbs with rfl
      exact ho ha

/-- Claim C7: appending a module list onto a duplicate-free existing
list never introduces a module already present: the result is
duplicate-free, contains exactly the modules of the two inputs, and
each such module — in particular one requested repeatedly or shared as
a transitive dependency — occurs exactly once. -/
theorem C7_append_modules_unique (modules others : List ModulePtr)
    (h : modules.Nodup) :
    (appendModules modules others).Nodup ∧
    (∀ p, p ∈ appendModules modules others ↔ p ∈ modules ∨ p ∈ others) ∧
    ∀ p, p ∈ modules ∨ p ∈ others →
      (appendModules modules others).count p = 1 := by
  have hn : (appendModules modules others).Nodup := by
    unfold appendModules
    split_ifs
    · exact h
    · exact appendModulesLoop_nodup others modules h
  have hm : ∀ p, p ∈ appendModules modules others ↔
      p ∈ modules ∨ p ∈ others := by
    intro p
    unfold appendModules
    split_ifs with he
    · simp [List.isEmpty_iff.1 he]
    · exact appendModulesLoop_mem others modules p
  exact ⟨hn, hm, fun p hp => List.count_eq_one_of_mem hn ((hm p).2 hp)⟩

/-- Claim C7 witness: merging `[2,3,1,4]` onto `[1,2]` keeps the list
duplicate-free and the doubly-requested module `2` occurs once. -/
theorem C7_witness :
    (appendModules [1, 2] [2, 3, 1, 4]).Nodup ∧
    (appendModules [1, 2] [2, 3, 1, 4]).count 2 = 1 :=
  ⟨(C7_append_modules_unique [1, 2] [2, 3, 1, 4] (by decide)).1,
   (C7_append_modules_unique [1, 2] [2, 3, 1, 4] (by decide)).2.2 2
     (Or.inl (by decide))⟩

/-- An index into a trace extended by one event hits either the old
trace or the new final event. -/
theorem getElem?_append_single {α : Type} (l : List α) (e : α) (j : Nat)
    (x : α) (h : (l ++ [e])[j]? = some x) :
    (j < l.length ∧ l[j]? = some x) ∨ (j = l.length ∧ x = e) := by
  rcases Nat.lt_trichotomy j l.length with hj | hj | hj
  · left
    refine ⟨hj, ?_⟩
    rwa [List.getElem?_append_left hj] at h
  · right
    subst hj
    rw [List.getElem?_concat_length] at h
    exact ⟨rfl, (Option.some.inj h).symm⟩
  · exfalso
    rw [List.getElem?_eq_none (by simp; omega)] at h
    cases h

/-- The formalisation of claim C2 as stated: in every reachable
interleaving of a run with `n` background tasks whose main task
executes `script`, every `DONE` rendezvous with a background task
comes after the main task's return. -/
def signalsAfterMainRet (n : Nat) (script : List MAct) : Prop :=
  ∀ s tr, RunReach n (runInit script) s tr →
    ∀ (i j k : Nat), tr[i]? = some (REvent.bgSignal k) →
      tr[j]? = some REvent.mainRet → j < i

/-- Invariant of the drain protocol: the drain goroutine moves past its
receive only by the `sync0` rendezvous, so once it is sending (or has
sent) `DONE` tokens, `sync0` is in the trace; and every `DONE`
rendezvous is preceded by `sync0`. -/
theorem runReach_sync0_invariant (n : Nat) (script : List MAct)
    (s : RunState) (tr : List REvent)
    (h : RunReach n (runInit script) s tr) :
    (s.drain.isSome → REvent.sync0 ∈ tr) ∧
    ∀ j k, tr[j]? = some (.bgSignal k) → REvent.sync0 ∈ tr.take j := by
  induction h with
  | refl =>
    refine ⟨?_, ?_⟩
    · intro hd
      simp [runInit] at hd
    · intro j k hj
      simp at hj
  | @step s tr e s' hreach hstep ih =>
    have htr : ∀ j k, (tr ++ [e])[j]? = some (.bgSignal k) →
        (REvent.sync0 ∈ tr → REvent.sync0 ∈ (tr ++ [e]).take j → True) := by
      intro _ _ _ _ _; trivial
    clear htr
    cases hstep with
    | internal r mr d =>
      refine ⟨fun hd => List.mem_append_left _ (ih.1 hd), ?_⟩
      intro j k hj
      rcases getElem?_append_single tr _ j _ hj with ⟨hlt, hj'⟩ | ⟨_, hx⟩
      · rw [List.take_append_of_le_length (Nat.le_of_lt hlt)]
        exact ih.2 j k hj'
      · cases hx
    | sync0 r mr =>
      refine ⟨fun _ => List.mem_append_right _ (List.mem_singleton.2 rfl), ?_⟩
      intro j k hj
      rcases getElem?_append_single tr _ j _ hj with ⟨hlt, hj'⟩ | ⟨_, hx⟩
      · rw [List.take_append_of_le_length (Nat.le_of_lt hlt)]
        exact ih.2 j k hj'
      · cases hx
    | mainRet d =>
      refine ⟨fun hd => List.mem_append_left _ (ih.1 hd), ?_⟩
      intro j k hj
      rcases getElem?_append_single tr _ j _ hj with ⟨hlt, hj'⟩ | ⟨_, hx⟩
      · rw [List.take_append_of_le_length (Nat.le_of_lt hlt)]
        exact ih.2 j k hj'
      · cases hx
    | bgSignal m mr k' hk =>
      have hs0 : REvent.sync0 ∈ tr := ih.1 (by simp)
      refine ⟨fun _ => List.mem_append_left _ hs0, ?_⟩
      intro j k hj
      rcases getElem?_append_single tr _ j _ hj with ⟨hlt, hj'⟩ | ⟨hlen, _⟩
      · rw [List.take_append_of_le_length (Nat.le_of_lt hlt)]
        exact ih.2 j k hj'
      · subst hlen
        rw [List.take_left]
        exact hs0

/-- Claim C2 counterexample: with one background task and a main task
that sends the completion token and then returns, the interleaving in
which the drain goroutine delivers `DONE` to the background task
between the main task's send and its return is reachable, so a `DONE`
send can precede the main task's return. -/
theorem C2_counterexample : ¬ signalsAfterMainRet 1 [.send] := by
  intro hcl
  have h1 : RunReach 1 (runInit [.send]) ⟨[], false, some 0⟩ [.sync0] :=
    RunReach.step (RunReach.refl) (RunStep.sync0 [] false)
  have h2 : RunReach 1 (runInit [.send]) ⟨[], false, some 1⟩
      [.sync0, .bgSignal 0] :=
    RunReach.step h1 (RunStep.bgSignal [] false 0 (by omega))
  have h3 : RunReach 1 (runInit [.send]) ⟨[], true, some 1⟩
      [.sync0, .bgSignal 0, .mainRet] :=
    RunReach.step h2 (RunStep.mainRet (some 1))
  have := hcl _ _ h3 1 2 0 rfl rfl
  omega

/-- Claim C2 (amended): during a run with background tasks, no `DONE`
token is delivered to a background task before the main task has sent
its completion token on its done channel: in every reachable
interleaving, every `bgSignal` rendezvous is preceded by the `sync0`
rendezvous (the main task's send).  The delivery may however land
between that send and the main task's return, as the counterexample
shows. -/
theorem C2_amended_signals_after_send (n : Nat) (script : List MAct)
    (s : RunState) (tr : List REvent)
    (h : RunReach n (runInit script) s tr) (j k : Nat)
    (hj : tr[j]? = some (.bgSignal k)) : REvent.sync0 ∈ tr.take j :=
  (runReach_sync0_invariant n script s tr h).2 j k hj

/-- Claim C2 (amended) witness at the two-step concrete trace. -/
theorem C2_amended_witness :
    REvent.sync0 ∈ ([REvent.sync0, REvent.bgSignal 0].take 1) :=
  C2_amended_signals_after_send 1 [.send] ⟨[], false, some 1⟩
    [.sync0, .bgSignal 0]
    (RunReach.step
      (RunReach.step RunReach.refl (RunStep.sync0 [] false))
      (RunStep.bgSignal [] false 0 (by omega)))
    1 0 rfl

/-- The append loop only ever adds to the tail of the accumulated
list. -/
theorem appendModulesLoop_tail (others : List ModulePtr) :
    ∀ modules : List ModulePtr,
      ∃ t, appendModulesLoop modules others = modules ++ t := by
  induction others with
  | nil => intro ms; exact ⟨[], by simp [appendModulesLoop]⟩
  | cons o rest ih =>
    intro ms
    rw [appendModulesLoop]
    by_cases hb : inModules ms o = true
    · rw [if_pos hb]; exact ih ms
    · rw [if_neg hb]
      obtain ⟨t, ht⟩ := ih (ms ++ [o])
      exact ⟨o :: t, by rw [ht]; simp⟩

/-- Likewise `appendModules` only ever adds to the tail of the
accumulated list. -/
theorem appendModules_tail (modules others : List ModulePtr) :
    ∃ t, appendModules modules others = modules ++ t := by
  unfold appendModules
  split_ifs
  · exact ⟨[], by simp⟩
  · exact appendModulesLoop_tail others modules

/-- A successful `AppendModulesByName` extends the incoming list only
at its tail: the incoming list stays a prefix of the result. -/
theorem AppendModulesByName_tail (reg : List ModuleDesc)
    (names : List String) :
    ∀ modules res : List ModulePtr,
      AppendModulesByName reg modules names = .ok res →
      ∃ t, res = modules ++ t := by
  induction names with
  | nil =>
    intro ms res h
    simp only [AppendModulesByName] at h
    exact ⟨[], by simp [Except.ok.inj h]⟩
  | cons n rest ih =>
    intro ms res h
    simp only [AppendModulesByName] at h
    cases hr : ModuleWithDependencies reg n with
    | error e => rw [hr] at h; cases h
    | ok arr =>
      rw [hr] at h
      obtain ⟨t1, ht1⟩ := ih (appendModules ms arr) res h
      obtain ⟨t0, ht0⟩ := appendModules_tail ms arr
      exact ⟨t0 ++ t1, by rw [ht1, ht0, List.append_assoc]⟩

/-- A successful resolution of `name` returns a sequence containing
the registry entry of `name` itself. -/
theorem resolveOne_mem (reg : List ModuleDesc) (fuel : Nat)
    (visiting : List String) (name : String) (resolved res : List Nat)
    (h : resolveOne reg fuel visiting name resolved = .ok res) :
    ∃ i, reg.findIdx? (fun d => d.name = name) = some i ∧ i ∈ res := by
  cases fuel with
  | zero =>
    simp only [resolveOne] at h
    simp at h
  | succ fuel' =>
    simp only [resolveOne] at h
    split at h
    next => simp at h
    next i hf =>
      split_ifs at h with h1 h2
      · exact ⟨i, hf, (Except.ok.inj h) ▸ h1⟩
      · cases hm : resolveMany reg fuel' (name :: visiting)
            ((reg.get? i).elim [] ModuleDesc.deps) resolved with
        | error e => rw [hm] at h; simp at h
        | ok resolved' =>
          rw [hm] at h
          simp only [Except.ok.injEq] at h
          refine ⟨i, hf, ?_⟩
          rw [← h]
          exact List.mem_append_right _ (List.mem_singleton.2 rfl)

/-- Claim C10: a configuration produced by `NewAppConfig` (when the
logger closure and the requested names resolve) carries the logger
module and its dependencies as the leading prefix of its module list —
before anything the caller requested — and the logger module itself is
in that prefix, so an application always includes a logger even when
none was requested. -/
theorem C10_logger_resolved_first (reg : List ModuleDesc)
    (names : List String) (L M : List ModulePtr)
    (hL : ModuleWithDependencies reg "logger" = .ok L)
    (hM : AppendModulesByName reg L names = .ok M) :
    (NewAppConfig reg names).Modules.take L.length = L ∧
    ∃ i, reg.findIdx? (fun d => d.name = "logger") = some i ∧ i ∈ L := by
  have hmods : (NewAppConfig reg names).Modules = M := by
    simp [NewAppConfig, hL, hM]
  obtain ⟨t, ht⟩ := AppendModulesByName_tail reg names L M hM
  constructor
  · rw [hmods, ht, List.take_left]
  · exact resolveOne_mem reg (resolveFuel reg) [] "logger" [] L hL

/-- Claim C10 witness: with `logger` and `mdns` registered and `mdns`
requested, the configuration's module list starts with the logger
closure. -/
theorem C10_witness :
    (NewAppConfig [⟨"logger", []⟩, ⟨"mdns", []⟩] ["mdns"]).Modules.take 1 =
      [0] :=
  (C10_logger_resolved_first [⟨"logger", []⟩, ⟨"mdns", []⟩] ["mdns"]
    [0] [0, 1] rfl rfl).1

end Gopi
